import Mathlib

/-!
Verification of the behavior-model core of `data_generation/behavior.py`:
covariance validation and correction, model loading, sampling
post-processing, and event-type registration, shallowly embedded in Lean.

Numeric idealisation: Python/numpy floating point is modelled by exact
ordered-field arithmetic (`ℝ` for matrices and eigenvalues, an arbitrary
`LinearOrderedField` for the rate post-processing, instantiated at `ℚ`
for concrete evaluations).  Decimal literals of the source (`0.333`,
`0.667`, `0.01`, `1e-05`, `1e-08`) are taken exactly as rationals.
-/

namespace FightingChurn

open Matrix

/-- `rtol` as set in `is_pos_def` (behavior.py line 14): `1e-05`. -/
def rtol : ℚ := 1 / 100000

/-- `atol` as set in `is_pos_def` (behavior.py line 15): `1e-08`. -/
def atol : ℚ := 1 / 100000000

/-- `np.allclose(a, b)` elementwise: `|a - b| <= atol + rtol * |b|`
(NaN handling is ignored under the exact-real idealisation). -/
def allclose {n : ℕ} (a b : Matrix (Fin n) (Fin n) ℝ) : Prop :=
  ∀ i j, |a i j - b i j| ≤ (atol : ℝ) + (rtol : ℝ) * |b i j|

/-- `np.all(np.linalg.eigvals(matrix) > 0)`: every eigenvalue of `M` is
strictly positive.  Eigenvalues are modelled as real numbers admitting a
nonzero real eigenvector, which is exhaustive for the (near-)symmetric
real matrices this check is meant to accept. -/
def eigPos {n : ℕ} (M : Matrix (Fin n) (Fin n) ℝ) : Prop :=
  ∀ (μ : ℝ) (v : Fin n → ℝ), v ≠ 0 → M *ᵥ v = μ • v → 0 < μ

/-- `is_pos_def(matrix)` (behavior.py lines 7-17):
`np.all(np.linalg.eigvals(matrix) > 0) and np.allclose(matrix, matrix.T)`. -/
def is_pos_def {n : ℕ} (M : Matrix (Fin n) (Fin n) ℝ) : Prop :=
  eigPos M ∧ allclose M Mᵀ

/-- Spec wording (section 4.2): symmetric within tolerance
`|a - aᵗ| ≤ atol + rtol * |aᵗ|` with `rtol = 1e-5`, `atol = 1e-8`. -/
def symmetricWithinTol {n : ℕ} (M : Matrix (Fin n) (Fin n) ℝ) : Prop :=
  ∀ i j, |M i j - M j i| ≤ 1 / 100000000 + (1 / 100000) * |M j i|

/-- Spec wording (section 4.2): `is_valid(matrix)` holds iff the matrix is
symmetric within tolerance AND all eigenvalues are strictly positive. -/
def is_valid_spec {n : ℕ} (M : Matrix (Fin n) (Fin n) ℝ) : Prop :=
  symmetricWithinTol M ∧ eigPos M

/-- The covariance correction applied at behavior.py line 94:
`np.dot(self.behave_cov, self.behave_cov.T)`. -/
def correctCov {n : ℕ} (M : Matrix (Fin n) (Fin n) ℝ) : Matrix (Fin n) (Fin n) ℝ :=
  M * Mᵀ

theorem atol_eq : ((atol : ℝ)) = 1 / 100000000 := by
  norm_num [atol]

theorem rtol_eq : ((rtol : ℝ)) = 1 / 100000 := by
  norm_num [rtol]

theorem dot_self_nonneg {n : ℕ} (v : Fin n → ℝ) : 0 ≤ v ⬝ᵥ v :=
  Finset.sum_nonneg fun i _ => mul_self_nonneg (v i)

theorem dot_self_pos {n : ℕ} {v : Fin n → ℝ} (hv : v ≠ 0) : 0 < v ⬝ᵥ v :=
  lt_of_le_of_ne (dot_self_nonneg v) fun h => hv (Matrix.dotProduct_self_eq_zero.mp h.symm)

theorem dot_correctCov {n : ℕ} (M : Matrix (Fin n) (Fin n) ℝ) (v : Fin n → ℝ) :
    v ⬝ᵥ (correctCov M *ᵥ v) = (Mᵀ *ᵥ v) ⬝ᵥ (Mᵀ *ᵥ v) := by
  rw [correctCov, ← Matrix.mulVec_mulVec, Matrix.dotProduct_mulVec, ← Matrix.mulVec_transpose]

/-- Claim C3: `is_pos_def` returns true iff the matrix is symmetric within
tolerance `|a - aᵗ| ≤ atol + rtol·|aᵗ|` (rtol = 1e-5, atol = 1e-8) and all
eigenvalues are strictly positive. -/
theorem C3_is_pos_def_iff_is_valid_spec {n : ℕ} (M : Matrix (Fin n) (Fin n) ℝ) :
    is_pos_def M ↔ is_valid_spec M := by
  unfold is_pos_def is_valid_spec allclose symmetricWithinTol
  constructor
  · rintro ⟨h1, h2⟩
    exact ⟨fun i j => by simpa [Matrix.transpose_apply, atol_eq, rtol_eq] using h2 i j, h1⟩
  · rintro ⟨h1, h2⟩
    exact ⟨h2, fun i j => by simpa [Matrix.transpose_apply, atol_eq, rtol_eq] using h1 i j⟩

/-- Claim C4 counterexample: for the 1×1 zero matrix, the corrected matrix
`0 · 0ᵗ` has eigenvalue 0, so it fails the validity check `is_pos_def` —
correction guarantees positive semidefiniteness only, not definiteness. -/
theorem C4_counterexample :
    correctCov (0 : Matrix (Fin 1) (Fin 1) ℝ) = 0 * (0 : Matrix (Fin 1) (Fin 1) ℝ)ᵀ ∧
    ¬ is_pos_def (correctCov (0 : Matrix (Fin 1) (Fin 1) ℝ)) := by
  refine ⟨rfl, ?_⟩
  rintro ⟨heig, -⟩
  have h0 : correctCov (0 : Matrix (Fin 1) (Fin 1) ℝ) *ᵥ (fun _ => 1) =
      (0 : ℝ) • (fun _ => (1 : ℝ)) := by
    simp [correctCov]
  have hv : (fun _ => (1 : ℝ)) ≠ (0 : Fin 1 → ℝ) := by
    intro h
    exact one_ne_zero (congrFun h 0)
  exact lt_irrefl 0 (heig 0 _ hv h0)

/-- Claim C4 (amended): the correction yields exactly `M · Mᵗ`, which is
symmetric (hence symmetric within tolerance) and has every eigenvalue
nonnegative; it satisfies the full validity check `is_pos_def` whenever
`Mᵗ` has trivial kernel (in particular for invertible `M`), but not for
singular `M`. -/
theorem C4_amended {n : ℕ} (M : Matrix (Fin n) (Fin n) ℝ) :
    correctCov M = M * Mᵀ ∧
    allclose (correctCov M) (correctCov M)ᵀ ∧
    (∀ (μ : ℝ) (v : Fin n → ℝ), v ≠ 0 → correctCov M *ᵥ v = μ • v → 0 ≤ μ) ∧
    ((∀ v : Fin n → ℝ, v ≠ 0 → Mᵀ *ᵥ v ≠ 0) → is_pos_def (correctCov M)) := by
  have hsymm : (correctCov M)ᵀ = correctCov M := by
    rw [correctCov, Matrix.transpose_mul, Matrix.transpose_transpose]
  have hclose : allclose (correctCov M) (correctCov M)ᵀ := by
    intro i j
    rw [hsymm, sub_self, abs_zero]
    have h1 : (0 : ℝ) ≤ (atol : ℝ) := by rw [atol_eq]; norm_num
    have h2 : (0 : ℝ) ≤ (rtol : ℝ) * |correctCov M i j| := by
      have h0 : (0 : ℝ) ≤ (rtol : ℝ) := by rw [rtol_eq]; norm_num
      exact mul_nonneg h0 (abs_nonneg _)
    linarith
  have hmain : ∀ (μ : ℝ) (v : Fin n → ℝ), v ≠ 0 → correctCov M *ᵥ v = μ • v →
      μ * (v ⬝ᵥ v) = (Mᵀ *ᵥ v) ⬝ᵥ (Mᵀ *ᵥ v) := by
    intro μ v hv h
    have h1 : v ⬝ᵥ (correctCov M *ᵥ v) = μ * (v ⬝ᵥ v) := by
      rw [h, Matrix.dotProduct_smul, smul_eq_mul]
    rw [← h1, dot_correctCov]
  have hnonneg : ∀ (μ : ℝ) (v : Fin n → ℝ), v ≠ 0 → correctCov M *ᵥ v = μ • v → 0 ≤ μ := by
    intro μ v hv h
    have hk := hmain μ v hv h
    have hw : 0 ≤ (Mᵀ *ᵥ v) ⬝ᵥ (Mᵀ *ᵥ v) := dot_self_nonneg _
    have hvv : 0 < v ⬝ᵥ v := dot_self_pos hv
    by_contra hμ
    push_neg at hμ
    have : μ * (v ⬝ᵥ v) < 0 := mul_neg_of_neg_of_pos hμ hvv
    linarith
  refine ⟨rfl, hclose, hnonneg, ?_⟩
  intro hker
  refine ⟨?_, fun i j => by simpa [hsymm] using hclose i j⟩
  intro μ v hv h
  have hk := hmain μ v hv h
  have hw : 0 < (Mᵀ *ᵥ v) ⬝ᵥ (Mᵀ *ᵥ v) := dot_self_pos (hker v hv)
  have hvv : 0 < v ⬝ᵥ v := dot_self_pos hv
  by_contra hμ
  push_neg at hμ
  have : μ * (v ⬝ᵥ v) ≤ 0 := mul_nonpos_of_nonpos_of_nonneg hμ (le_of_lt hvv)
  linarith

/-- Witness for C4 (amended), at the 1×1 identity matrix: the transpose has
trivial kernel, so the corrected matrix passes the validity check. -/
theorem C4_witness : is_pos_def (correctCov (1 : Matrix (Fin 1) (Fin 1) ℝ)) := by
  refine (C4_amended (1 : Matrix (Fin 1) (Fin 1) ℝ)).2.2.2 ?_
  intro v hv
  simpa [Matrix.transpose_one, Matrix.one_mulVec] using hv

/-- `LogNormalBehaviorModel.generate_customer` post-processing (behavior.py
lines 139-143), applied to the linear-space sample
`r = self.exp_fun(np.random.multivariate_normal(...))`:
`rates = np.maximum(rates - 0.667, 0.333)` followed, when the optional `max`
column was declared, by `rates = rates.clip(max=self.behave_maxs)`. -/
def lognormalPost {α : Type} [LinearOrderedField α] {n : ℕ}
    (r : Fin n → α) (behave_maxs : Option (Fin n → α)) : Fin n → α :=
  match behave_maxs with
  | none => fun i => max (r i - 667 / 1000) (333 / 1000)
  | some m => fun i => min (max (r i - 667 / 1000) (333 / 1000)) (m i)

/-- `self.behave_means.min()` for a model with at least one behavior. -/
def minMeans {α : Type} [LinearOrderedField α] {n : ℕ} (means : Fin (n + 1) → α) : α :=
  Finset.univ.inf' Finset.univ_nonempty means

/-- `NormalBehaviorModel.generate_customer` post-processing (behavior.py line
110): `.clip(min=self.behave_means.min() * 0.01)` applied to the multivariate
normal draw.  The model state's `behave_maxs` is part of the loaded model but
is never read by this variant. -/
def normalPost {α : Type} [LinearOrderedField α] {n : ℕ} (means : Fin (n + 1) → α)
    (behave_maxs : Option (Fin (n + 1) → α)) (draw : Fin (n + 1) → α) : Fin (n + 1) → α :=
  fun i => max (draw i) (minMeans means * (1 / 100))

/-- Claim C2 counterexample: with linear-space sample 2 and a declared
maximum of 0.1 for the single behavior, the LogNormal output component is
0.1, which is below the claimed unconditional floor 0.333. -/
theorem C2_counterexample :
    ¬ ((333 : ℚ) / 1000 ≤
      lognormalPost (fun _ : Fin 1 => (2 : ℚ)) (some fun _ => 1 / 10) 0) := by
  have h : lognormalPost (fun _ : Fin 1 => (2 : ℚ)) (some fun _ => 1 / 10) 0 = 1 / 10 := by
    show min (max ((2 : ℚ) - 667 / 1000) (333 / 1000)) (1 / 10) = 1 / 10
    rw [max_eq_left (by norm_num), min_eq_right (by norm_num)]
  rw [h]
  norm_num

/-- Claim C2 (amended): every LogNormal output component is at least 0.333
when its behavior has no declared maximum (and then also tracks the raw rate
shifted by 0.667, so it is unbounded above), while a component with a
declared maximum is at most that maximum and at least the minimum of 0.333
and that maximum. -/
theorem C2_amended {α : Type} [LinearOrderedField α] {n : ℕ} (r : Fin n → α) (i : Fin n) :
    (333 / 1000 ≤ lognormalPost r none i ∧
      r i - 667 / 1000 ≤ lognormalPost r none i) ∧
    ∀ m : Fin n → α,
      min (333 / 1000) (m i) ≤ lognormalPost r (some m) i ∧
      lognormalPost r (some m) i ≤ m i := by
  refine ⟨⟨le_max_right _ _, le_max_left _ _⟩, fun m => ⟨?_, ?_⟩⟩
  · exact min_le_min (le_max_right _ _) (le_refl _)
  · exact min_le_right _ _

/-- Claim C5: every Normal-variant output component is at least
`0.01 × min(means)`; no upper bound is applied (the draw passes through
whenever it is above the floor, and the result does not depend on the
declared maxima at all). -/
theorem C5_normal_floor {α : Type} [LinearOrderedField α] {n : ℕ}
    (means : Fin (n + 1) → α) (behave_maxs : Option (Fin (n + 1) → α))
    (draw : Fin (n + 1) → α) (i : Fin (n + 1)) :
    minMeans means * (1 / 100) ≤ normalPost means behave_maxs draw i ∧
    draw i ≤ normalPost means behave_maxs draw i ∧
    ∀ other : Option (Fin (n + 1) → α),
      normalPost means behave_maxs draw = normalPost means other draw :=
  ⟨le_max_right _ _, le_max_left _ _, fun _ => rfl⟩

/-- The seeding step of `NormalBehaviorModel.__init__` (behavior.py lines
89-90): `if random_seed: np.random.seed(random_seed)`.  Under Python
truthiness `None` and `0` are falsy, so the global generator state `s` is
replaced by `seedFun k` exactly when a nonzero seed `k` is supplied. -/
def applySeed {S : Type} (seedFun : ℕ → S) (random_seed : Option ℕ) (s : S) : S :=
  match random_seed with
  | none => s
  | some k => if k = 0 then s else seedFun k

/-- A sequence of `generate_customer` calls of the Normal variant against an
abstract random source: `g` is one step of numpy's global generator, yielding
the multivariate-normal draw and the successor state (numpy's generator is
external collaborator code, modelled as a deterministic state machine per its
documentation). -/
def generateRun {α : Type} [LinearOrderedField α] {S : Type} {n : ℕ}
    (g : S → (Fin (n + 1) → α) × S) (means : Fin (n + 1) → α)
    (behave_maxs : Option (Fin (n + 1) → α)) : ℕ → S → List (Fin (n + 1) → α)
  | 0, _ => []
  | k + 1, s =>
    normalPost means behave_maxs (g s).1 :: generateRun g means behave_maxs k (g s).2

/-- Claim C9: supplying `random_seed = 0` skips seeding (the truthiness
guard), so it behaves exactly like supplying no seed; every nonzero seed
seeds the shared generator. -/
theorem C9_seed_zero_truthiness {S : Type} (seedFun : ℕ → S) (s : S) :
    applySeed seedFun (some 0) s = applySeed seedFun none s ∧
    applySeed seedFun (some 0) s = s ∧
    ∀ k : ℕ, k ≠ 0 → applySeed seedFun (some k) s = seedFun k := by
  refine ⟨rfl, rfl, fun k hk => ?_⟩
  simp [applySeed, hk]

/-- Witness for C9 at seed 5 with a concrete generator-state type. -/
theorem C9_witness : applySeed (fun k => k + 1) (some 5) 0 = 6 :=
  (C9_seed_zero_truthiness (fun k => k + 1) 0).2.2 5 (by decide)

/-- Claim C6: two runs that seed the shared generator identically and make
the same sequence of generation calls on the same loaded model produce
identical rate vectors. -/
theorem C6_determinism {α : Type} [LinearOrderedField α] {S : Type} {n : ℕ}
    (g : S → (Fin (n + 1) → α) × S) (means : Fin (n + 1) → α)
    (behave_maxs : Option (Fin (n + 1) → α)) (seedFun : ℕ → S)
    (seed1 seed2 k1 k2 : ℕ) (s0 : S) (hseed : seed1 = seed2) (hk : k1 = k2) :
    generateRun g means behave_maxs k1 (applySeed seedFun (some seed1) s0) =
    generateRun g means behave_maxs k2 (applySeed seedFun (some seed2) s0) := by
  subst hseed
  subst hk
  rfl

/-- Concrete random-source step used by the C6 witness. -/
def drawStep : ℕ → (Fin 1 → ℚ) × ℕ :=
  fun s => (fun _ => (s : ℚ), s + 1)

/-- Witness for C6: two identically seeded two-call runs coincide. -/
theorem C6_witness :
    (3 = 3 ∧ 2 = 2) ∧
    generateRun drawStep (fun _ => 1) none 2 (applySeed (fun k => k) (some 3) 0) =
    generateRun drawStep (fun _ => 1) none 2 (applySeed (fun k => k) (some 3) 0) :=
  ⟨⟨rfl, rfl⟩, C6_determinism drawStep (fun _ => 1) none (fun k => k) 3 3 2 2 0 rfl rfl⟩

/-- `db.one(self._event_id_sql(schema, event))` (behavior.py lines 47 and 58):
the id of the first row of the `event_type` table whose `event_type_name`
equals `event`.  The store is modelled as the ordered list of
`(event_type_id, event_type_name)` rows. -/
def lookupEvent : List (ℕ × String) → String → Option ℕ
  | [], _ => none
  | r :: rest, e => if r.2 = e then some r.1 else lookupEvent rest e

/-- The loop body of `BehaviorModel.insert_event_types` (behavior.py lines
46-48) from position `idx` on: for each behavior name in order, insert the
row `(idx, name)` when no row with that name exists yet.  Returns the
resulting table together with the number of INSERT statements executed. -/
def insertFrom : ℕ → List String → List (ℕ × String) → List (ℕ × String) × ℕ
  | _, [], db => (db, 0)
  | idx, e :: rest, db =>
    if (lookupEvent db e).isSome then insertFrom (idx + 1) rest db
    else
      let r := insertFrom (idx + 1) rest (db ++ [(idx, e)])
      (r.1, r.2 + 1)

/-- `BehaviorModel.insert_event_types` (behavior.py lines 46-48):
`for idx, event in enumerate(self.behave_names)` starting at index 0. -/
def insert_event_types (names : List String) (db : List (ℕ × String)) :
    List (ℕ × String) × ℕ :=
  insertFrom 0 names db

theorem lookupEvent_append_left {db1 : List (ℕ × String)} {e : String}
    (h : (lookupEvent db1 e).isSome) (db2 : List (ℕ × String)) :
    lookupEvent (db1 ++ db2) e = lookupEvent db1 e := by
  induction db1 with
  | nil => simp [lookupEvent] at h
  | cons r rest ih =>
    by_cases hr : r.2 = e
    · simp [lookupEvent, hr]
    · simp only [lookupEvent, if_neg hr] at h
      simp only [List.cons_append, lookupEvent, if_neg hr]
      exact ih h

theorem lookupEvent_append_right {db1 : List (ℕ × String)} {e : String}
    (h : lookupEvent db1 e = none) (db2 : List (ℕ × String)) :
    lookupEvent (db1 ++ db2) e = lookupEvent db2 e := by
  induction db1 with
  | nil => rfl
  | cons r rest ih =>
    by_cases hr : r.2 = e
    · simp [lookupEvent, hr] at h
    · simp only [lookupEvent, if_neg hr] at h
      simp only [List.cons_append, lookupEvent, if_neg hr]
      exact ih h

theorem insertFrom_eq_append (idx : ℕ) (names : List String) (db : List (ℕ × String)) :
    ∃ s, (insertFrom idx names db).1 = db ++ s := by
  induction names generalizing idx db with
  | nil => exact ⟨[], by simp [insertFrom]⟩
  | cons e rest ih =>
    by_cases h : (lookupEvent db e).isSome
    · simpa [insertFrom, h] using ih (idx + 1) db
    · obtain ⟨s, hs⟩ := ih (idx + 1) (db ++ [(idx, e)])
      exact ⟨(idx, e) :: s, by simp [insertFrom, h, hs]⟩

theorem lookup_isSome_insertFrom {db : List (ℕ × String)} {e : String}
    (idx : ℕ) (names : List String) (h : (lookupEvent db e).isSome) :
    (lookupEvent (insertFrom idx names db).1 e).isSome := by
  obtain ⟨s, hs⟩ := insertFrom_eq_append idx names db
  rw [hs, lookupEvent_append_left h]
  exact h

theorem all_present_after (names : List String) :
    ∀ (idx : ℕ) (db : List (ℕ × String)) (e : String), e ∈ names →
      (lookupEvent (insertFrom idx names db).1 e).isSome := by
  induction names with
  | nil =>
    intro idx db e he
    cases he
  | cons a rest ih =>
    intro idx db e he
    rcases List.mem_cons.mp he with rfl | hmem
    · by_cases h : (lookupEvent db e).isSome
      · simp only [insertFrom, if_pos h]
        exact lookup_isSome_insertFrom _ _ h
      · simp only [insertFrom, if_neg h]
        have hnone : lookupEvent db e = none := Option.not_isSome_iff_eq_none.mp h
        have hmid : lookupEvent (db ++ [(idx, e)]) e = some idx := by
          rw [lookupEvent_append_right hnone]
          simp [lookupEvent]
        exact lookup_isSome_insertFrom _ _ (by rw [hmid]; rfl)
    · by_cases h : (lookupEvent db a).isSome
      · simp only [insertFrom, if_pos h]
        exact ih _ _ _ hmem
      · simp only [insertFrom, if_neg h]
        exact ih _ _ _ hmem

theorem insertFrom_no_op (names : List String) :
    ∀ (idx : ℕ) (db : List (ℕ × String)),
      (∀ e ∈ names, (lookupEvent db e).isSome) → insertFrom idx names db = (db, 0) := by
  induction names with
  | nil =>
    intro idx db _
    rfl
  | cons a rest ih =>
    intro idx db h
    have ha := h a (List.mem_cons_self a rest)
    simp only [insertFrom, if_pos ha]
    exact ih _ _ fun e he => h e (List.mem_cons_of_mem _ he)

theorem insertFrom_fresh (names : List String) :
    ∀ (idx : ℕ) (db : List (ℕ × String)), names.Nodup →
      (∀ e ∈ names, lookupEvent db e = none) →
      insertFrom idx names db = (db ++ List.enumFrom idx names, names.length) := by
  induction names with
  | nil =>
    intro idx db _ _
    simp [insertFrom]
  | cons a rest ih =>
    intro idx db hnd hfresh
    have ha : lookupEvent db a = none := hfresh a (List.mem_cons_self a rest)
    have ha2 : ¬ (lookupEvent db a).isSome = true := by simp [ha]
    simp only [insertFrom, if_neg ha2]
    have hrest : ∀ e ∈ rest, lookupEvent (db ++ [(idx, a)]) e = none := by
      intro e he
      have h1 : lookupEvent db e = none := hfresh e (List.mem_cons_of_mem _ he)
      have h2 : e ≠ a := fun hea => (List.nodup_cons.mp hnd).1 (hea ▸ he)
      rw [lookupEvent_append_right h1]
      simp [lookupEvent, Ne.symm h2]
    rw [ih (idx + 1) (db ++ [(idx, a)]) (List.nodup_cons.mp hnd).2 hrest]
    simp [List.enumFrom_cons, List.append_assoc]

/-- Claim C8 counterexample: with a store that already contains the behavior
("a" registered with id 7), two successive registration calls perform zero
inserts in total, not one insert per behavior. -/
theorem C8_counterexample :
    (insert_event_types ["a"] [(7, "a")]).2 +
      (insert_event_types ["a"] (insert_event_types ["a"] [(7, "a")]).1).2 = 0 ∧
    ¬ ((insert_event_types ["a"] [(7, "a")]).2 +
      (insert_event_types ["a"] (insert_event_types ["a"] [(7, "a")]).1).2 =
        (["a"] : List String).length) := by
  exact ⟨rfl, by decide⟩

/-- Claim C8 (amended): registration is idempotent — the second of two
successive calls performs no inserts and leaves the store (ids included)
unchanged; and when the behaviors are distinct and none is registered yet,
the first call performs exactly one insert per behavior, keyed by its
position index and exact name. -/
theorem C8_amended (names : List String) (db : List (ℕ × String)) :
    insert_event_types names (insert_event_types names db).1 =
      ((insert_event_types names db).1, 0) ∧
    (names.Nodup → (∀ e ∈ names, lookupEvent db e = none) →
      insert_event_types names db = (db ++ List.enumFrom 0 names, names.length)) := by
  constructor
  · exact insertFrom_no_op names 0 _ fun e he => all_present_after names 0 db e he
  · intro h1 h2
    exact insertFrom_fresh names 0 db h1 h2

/-- Witness for C8 (amended): registering ["a", "b"] into an empty store
inserts (0, "a") and (1, "b"), two inserts in total. -/
theorem C8_witness :
    List.Nodup ["a", "b"] ∧
    insert_event_types ["a", "b"] [] = ([] ++ List.enumFrom 0 ["a", "b"], 2) :=
  ⟨by decide, (C8_amended ["a", "b"] []).2 (by decide) (by decide)⟩

/-- The configuration table after `pd.read_csv(model_path).set_index(['behavior'])`
(behavior.py line 79): the row index is the declared behavior names in row
order; the remaining columns (`mean`, optionally `max`, and the covariance
block) form an ordered association list from column name to column values. -/
structure Table (n : ℕ) where
  rowNames : Fin n → String
  cols : List (String × (Fin n → ℝ))

/-- `model[c]` for a single column name: the column named `c`, or `none`
(pandas raises `KeyError`) when the column is absent. -/
def lookupCol {n : ℕ} (t : Table n) (c : String) : Option (Fin n → ℝ) :=
  (t.cols.find? fun p => p.1 == c).map Prod.snd

/-- `self.behave_cov = model[self.behave_names]` (behavior.py line 83): the
square covariance block, built when every declared behavior name is a
column; otherwise pandas raises `KeyError` (modelled as `none`). -/
def covBlock {n : ℕ} (t : Table n) : Option (Matrix (Fin n) (Fin n) ℝ) :=
  if h : ∀ j : Fin n, (lookupCol t (t.rowNames j)).isSome then
    some (Matrix.of fun i j => (lookupCol t (t.rowNames j)).get (h j) i)
  else none

/-- The `self.*` fields set by `NormalBehaviorModel.__init__`. -/
structure ModelState (n : ℕ) where
  behave_means : Fin n → ℝ
  behave_maxs : Option (Fin n → ℝ)
  behave_names : Fin n → String
  behave_cov : Matrix (Fin n) (Fin n) ℝ

/-- The exceptions `__init__` can raise: pandas `KeyError` for a missing
column, the explicit `ValueError` of line 86, and the `TypeError` raised by
`os.path.join(None, ...)` when `CHURN_OUT_DIR` is unset (line 97). -/
inductive LoadError
  | keyError (col : String)
  | valueError
  | typeError

/-- Outcome of model construction: a loaded model or a raised exception. -/
inductive LoadOutcome (n : ℕ)
  | ok (m : ModelState n)
  | err (e : LoadError)

/-- `input("...") in ('y', 'Y')` (behavior.py line 93): the correction is
approved exactly when the interactive answer is `y` or `Y`. -/
def approved (ans : String) : Bool :=
  ans == "y" || ans == "Y"

/-- `NormalBehaviorModel.__init__` (behavior.py lines 66-99) as a function of
the loaded table `t`, the seed, the boolean outcome `chk` of
`is_pos_def(self.behave_cov)` (theorems tie `chk` to `is_pos_def`, which is
not decidable in the exact-real model), the answer `ans` typed at the
correction prompt, and the `CHURN_OUT_DIR` environment variable.  Notes:
the explicit all-columns check of line 86 can never raise, because
`model[self.behave_names]` (covBlock) has already raised `KeyError` when a
behavior column is missing; `if random_seed: np.random.seed(random_seed)`
(lines 89-90) mutates only the ambient generator state and is modelled by
`applySeed`, so `random_seed` does not influence the returned model;
makedirs/copyfile are external collaborators. -/
def construct {n : ℕ} (t : Table n) (random_seed : Option ℕ) (chk : Bool)
    (ans : String) (env : Option String) : LoadOutcome n :=
  match lookupCol t "mean" with
  | none => .err (.keyError "mean")
  | some behave_means =>
    match covBlock t with
    | none => .err (.keyError "covariance")
    | some cov =>
      if ¬ (∀ j : Fin n, (lookupCol t (t.rowNames j)).isSome) then .err .valueError
      else
        let behave_cov := if !chk && approved ans then correctCov cov else cov
        match env with
        | none => .err .typeError
        | some _ =>
          .ok { behave_means := behave_means
                behave_maxs := lookupCol t "max"
                behave_names := t.rowNames
                behave_cov := behave_cov }

theorem covBlock_isSome_iff {n : ℕ} (t : Table n) :
    (covBlock t).isSome ↔ ∀ j : Fin n, (lookupCol t (t.rowNames j)).isSome := by
  rw [covBlock]
  split
  · simp [*]
  · simp [*]

/-- Claim C7: loading fails when some declared behavior name has no matching
covariance column, and the covariance block is built exactly when every
declared behavior name (each of which is a row by construction) is also a
covariance column. -/
theorem C7_missing_column_fails {n : ℕ} (t : Table n) (seed : Option ℕ)
    (chk : Bool) (ans : String) (env : Option String) :
    ((∃ j : Fin n, lookupCol t (t.rowNames j) = none) →
      ∃ e, construct t seed chk ans env = .err e) ∧
    ((covBlock t).isSome ↔ ∀ j : Fin n, (lookupCol t (t.rowNames j)).isSome) := by
  refine ⟨?_, covBlock_isSome_iff t⟩
  rintro ⟨j, hj⟩
  have hcov : covBlock t = none := by
    rw [covBlock, dif_neg]
    intro hall
    simpa [hj] using hall j
  cases hm : lookupCol t "mean" with
  | none => exact ⟨.keyError "mean", by simp [construct, hm]⟩
  | some mv => exact ⟨.keyError "covariance", by simp [construct, hm, hcov]⟩

/-- Table for the C7 witness: one behavior "a" with a mean column but no
covariance column named "a". -/
def Tmiss : Table 1 :=
  ⟨fun _ => "a", [("mean", fun _ => 1)]⟩

/-- Witness for C7: loading `Tmiss` fails. -/
theorem C7_witness : ∃ e, construct Tmiss none true "n" (some "out") = .err e :=
  (C7_missing_column_fails Tmiss none true "n" (some "out")).1 ⟨0, rfl⟩

/-- Claim C10: whenever `CHURN_OUT_DIR` is unset, model construction fails
with an error (for every table, seed, check outcome and prompt answer),
because the backup destination is computed unconditionally from the
environment variable. -/
theorem C10_env_unset_fails {n : ℕ} (t : Table n) (seed : Option ℕ)
    (chk : Bool) (ans : String) :
    ∃ e, construct t seed chk ans none = .err e := by
  cases hm : lookupCol t "mean" with
  | none => exact ⟨.keyError "mean", by simp [construct, hm]⟩
  | some mv =>
    cases hc : covBlock t with
    | none => exact ⟨.keyError "covariance", by simp [construct, hm, hc]⟩
    | some cov =>
      by_cases hall : ∀ j : Fin n, (lookupCol t (t.rowNames j)).isSome
      · exact ⟨.typeError, by simp [construct, hm, hc, hall]⟩
      · exact ⟨.valueError, by simp [construct, hm, hc, hall]⟩

/-- Table for the C1 counterexample and witness: one behavior "b", mean 1,
covariance entry -1 (not positive definite). -/
def T1 : Table 1 :=
  ⟨fun _ => "b", [("mean", fun _ => 1), ("b", fun _ => -1)]⟩

/-- The covariance block of `T1`. -/
def covT1 : Matrix (Fin 1) (Fin 1) ℝ :=
  Matrix.of fun _ _ => -1

theorem covT1_not_pos_def : ¬ is_pos_def covT1 := by
  rintro ⟨heig, -⟩
  have h0 : covT1 *ᵥ (fun _ => 1) = (-1 : ℝ) • (fun _ => (1 : ℝ)) := by
    funext i
    simp [covT1, Matrix.mulVec, Matrix.dotProduct]
  have hv : (fun _ => (1 : ℝ)) ≠ (0 : Fin 1 → ℝ) := fun h => one_ne_zero (congrFun h 0)
  have := heig (-1) _ hv h0
  linarith

/-- Claim C1 counterexample: the covariance of `T1` fails the
positive-definite check, the prompt answer "n" does not approve correction,
and yet construction completes with the invalid matrix instead of failing
with an `InvalidCovarianceError` (no such error exists in the code). -/
theorem C1_counterexample :
    ¬ is_pos_def covT1 ∧
    ∃ m : ModelState 1, construct T1 none false "n" (some "out") = .ok m ∧
      m.behave_cov = covT1 := by
  refine ⟨covT1_not_pos_def, ?_⟩
  exact ⟨_, rfl, rfl⟩

/-- Claim C1 (amended): when the loaded covariance matrix fails the
symmetric-positive-definite check (`chk = false`, justified by
`¬ is_pos_def cov`) and no affirmative approval is given, construction does
not fail: it completes, keeping the invalid matrix unchanged. -/
theorem C1_amended {n : ℕ} (t : Table n) (seed : Option ℕ) (ans dir : String)
    (cov : Matrix (Fin n) (Fin n) ℝ) (hm : (lookupCol t "mean").isSome)
    (hcov : covBlock t = some cov) (hpd : ¬ is_pos_def cov)
    (hans : approved ans = false) :
    ∃ m : ModelState n, construct t seed false ans (some dir) = .ok m ∧
      m.behave_cov = cov := by
  obtain ⟨mv, hmv⟩ := Option.isSome_iff_exists.mp hm
  have hall : ∀ j : Fin n, (lookupCol t (t.rowNames j)).isSome :=
    (covBlock_isSome_iff t).mp (by rw [hcov]; rfl)
  refine ⟨⟨mv, lookupCol t "max", t.rowNames, cov⟩, ?_, rfl⟩
  simp [construct, hmv, hcov, hans, hall]

/-- Witness for C1 (amended), instantiated at the concrete table `T1`. -/
theorem C1_witness :
    ∃ m : ModelState 1, construct T1 none false "n" (some "outdir") = .ok m ∧
      m.behave_cov = covT1 :=
  C1_amended T1 none "n" "outdir" covT1 rfl rfl covT1_not_pos_def rfl

end FightingChurn
